import Mathlib

/-!
Shallow embedding of the configuration long-poll watch/notification center
of the polaris repository (source file: src/config/watcher.go).

Modelling conventions:
* Go maps (`utils.SyncMap`) are association lists `List (key × value)`;
  `utils.SyncSet[string]` is a `List String` used as a set.
* The single-fire delivery slot of a `LongPollWatchContext` (the `sync.Once`
  latch together with the buffered `finishChan`) is explicit state:
  `onceDone` is the latch, `chanSent` records the messages sent on the
  channel and `chanClosed` records whether it has been closed.
* Operations of the watch center that send on client channels additionally
  return the list of `(clientId, response)` pairs actually sent during the
  call, so that delivery remains observable even after a context has been
  deleted from the index.  This log is exactly the set of channel sends
  performed by the Go code under a sequential execution of the operation.
* `time.Time` is a `Nat`; it is only ever passed opaquely to `ShouldExpire`.
-/

namespace PolarisConfig

/-- Modelled from the spec: the composite file-identity key produced by
`utils.GenFileId` and `model.BuildKeyForClientConfigFileInfo` (both outside
src/), described in the spec as "namespace + group + filename, concatenated
deterministically into a single canonical string; used as the index key in
both directions".  We keep the triple itself as the canonical key. -/
structure FileId where
  nspace : String
  group : String
  fileName : String
deriving DecidableEq, Repr

/-- Client-declared interest entry (`apiconfig.ClientConfigFileInfo`,
protobuf wrapper fields collapsed to plain values; a nil wrapper reads as
the zero value, exactly as `GetValue()` does in Go). -/
structure ClientConfigFileInfo where
  nspace : String
  group : String
  fileName : String
  version : Nat
  md5 : String
  name : String
deriving DecidableEq, Repr

/-- Published release descriptor (`model.SimpleConfigFileRelease`), the
payload of a publish event: file identity, new version, checksum, name. -/
structure SimpleConfigFileRelease where
  nspace : String
  group : String
  fileName : String
  version : Nat
  md5 : String
  name : String
deriving DecidableEq, Repr

/-- Modelled from the spec: `utils.GenFileId` (outside src/) builds the
canonical file-identity key from namespace, group and file name. -/
def GenFileId (nspace group fileName : String) : FileId :=
  ⟨nspace, group, fileName⟩

/-- Modelled from the spec: `model.BuildKeyForClientConfigFileInfo`
(outside src/) builds the same canonical key from an interest entry. -/
def BuildKeyForClientConfigFileInfo (item : ClientConfigFileInfo) : FileId :=
  GenFileId item.nspace item.group item.fileName

/-- Modelled from the spec: `SimpleConfigFileRelease.ActiveKey` (outside
src/) is the canonical key of the released file's identity. -/
def SimpleConfigFileRelease.ActiveKey (r : SimpleConfigFileRelease) : FileId :=
  GenFileId r.nspace r.group r.fileName

/-- Response codes used by watcher.go (`apimodel.Code_...` values, outside
src/; modelled as an enumeration since only their distinctness matters). -/
inductive Code where
  | ExecuteSuccess
  | DataNoChange
  | InvalidWatchConfigFileFormat
  | BadRequest
deriving DecidableEq, Repr

/-- Terminal response delivered to a long-poll client
(`apiconfig.ConfigClientResponse`, restricted to the fields watcher.go
sets: code, the optional changed-file descriptor, and the optional info
string of `NewConfigClientResponseWithInfo`). -/
structure ConfigClientResponse where
  code : Code
  configFile : Option ClientConfigFileInfo
  info : Option String
deriving DecidableEq, Repr

/-- Modelled from the spec: `api.NewConfigClientResponse` (outside src/). -/
def NewConfigClientResponse (code : Code) (file : Option ClientConfigFileInfo) :
    ConfigClientResponse :=
  ⟨code, file, none⟩

/-- Modelled from the spec: `api.NewConfigClientResponse0` (outside src/). -/
def NewConfigClientResponse0 (code : Code) : ConfigClientResponse :=
  ⟨code, none, none⟩

/-- Modelled from the spec: `api.NewConfigClientResponseWithInfo` (outside src/). -/
def NewConfigClientResponseWithInfo (code : Code) (info : String) :
    ConfigClientResponse :=
  ⟨code, none, some info⟩

/-- Modelled from the spec: `ToSpecNotifyClientRequest` (outside src/)
builds the shared notify payload describing the republished file — "one
immutable success response representing this file changed to version V". -/
def SimpleConfigFileRelease.ToSpecNotifyClientRequest
    (r : SimpleConfigFileRelease) : ClientConfigFileInfo :=
  ⟨r.nspace, r.group, r.fileName, r.version, r.md5, r.name⟩

/-- The canonical "no change" sentinel of watcher.go lines 41-46:
code `DataNoChange`, nil `ConfigFile`. -/
def notModifiedResponse : ConfigClientResponse :=
  ⟨Code.DataNoChange, none, none⟩

/-- Association-list lookup (the `Load` of `utils.SyncMap`). -/
def alookup {α β : Type} [DecidableEq α] : List (α × β) → α → Option β
  | [], _ => none
  | p :: rest, k => if p.1 = k then some p.2 else alookup rest k

/-- Association-list store (the `Store`-like update of `utils.SyncMap`):
replaces the binding of the key, appending it if absent. -/
def aset {α β : Type} [DecidableEq α] : List (α × β) → α → β → List (α × β)
  | [], k, v => [(k, v)]
  | p :: rest, k, v => if p.1 = k then (k, v) :: rest else p :: aset rest k v

/-- Association-list delete (the `Delete` of `utils.SyncMap`). -/
def adel {α β : Type} [DecidableEq α] (l : List (α × β)) (k : α) : List (α × β) :=
  l.filter (fun p => p.1 ≠ k)

/-- Set insertion (the `Add` of `utils.SyncSet[string]`). -/
def setAdd (s : List String) (x : String) : List String :=
  if x ∈ s then s else s ++ [x]

/-- Set removal (the `Remove` of `utils.SyncSet[string]`). -/
def setRemove (s : List String) (x : String) : List String :=
  s.filter (fun y => y ≠ x)

/-- Per-client long-poll registration state (watcher.go lines 75-81).
`onceDone` is the `sync.Once` latch, `chanSent`/`chanClosed` the state of
`finishChan`, `watchConfigFiles` the interest map keyed by
`BuildKeyForClientConfigFileInfo`. -/
structure LongPollWatchContext where
  clientId : String
  onceDone : Bool
  finishTime : Nat
  chanSent : List ConfigClientResponse
  chanClosed : Bool
  watchConfigFiles : List (FileId × ClientConfigFileInfo)
deriving DecidableEq, Repr

/-- IsOnce (watcher.go lines 84-86): always true. -/
def LongPollWatchContext.IsOnce (_ : LongPollWatchContext) : Bool :=
  true

/-- ShouldExpire (watcher.go lines 103-105): always true, whatever `now`. -/
def LongPollWatchContext.ShouldExpire (_ : LongPollWatchContext) (_now : Nat) : Bool :=
  true

/-- ClientID (watcher.go lines 108-110). -/
def LongPollWatchContext.ClientID (c : LongPollWatchContext) : String :=
  c.clientId

/-- ShouldNotify (watcher.go lines 112-119): look the event's active key up
in the interest map; absent means false, otherwise compare the declared
version strictly against the event's version. -/
def LongPollWatchContext.ShouldNotify (c : LongPollWatchContext)
    (event : SimpleConfigFileRelease) : Bool :=
  match alookup c.watchConfigFiles event.ActiveKey with
  | none => false
  | some watchFile => decide (watchFile.version < event.version)

/-- ListWatchFiles (watcher.go lines 121-127): the values of the interest map. -/
def LongPollWatchContext.ListWatchFiles (c : LongPollWatchContext) :
    List ClientConfigFileInfo :=
  c.watchConfigFiles.map Prod.snd

/-- AppendInterest (watcher.go lines 130-133). -/
def LongPollWatchContext.AppendInterest (c : LongPollWatchContext)
    (item : ClientConfigFileInfo) : LongPollWatchContext :=
  { c with
      watchConfigFiles := aset c.watchConfigFiles (BuildKeyForClientConfigFileInfo item) item }

/-- RemoveInterest (watcher.go lines 136-139). -/
def LongPollWatchContext.RemoveInterest (c : LongPollWatchContext)
    (item : ClientConfigFileInfo) : LongPollWatchContext :=
  { c with
      watchConfigFiles := adel c.watchConfigFiles (BuildKeyForClientConfigFileInfo item) }

/-- Close (watcher.go lines 142-144): returns nil and has no effect. -/
def LongPollWatchContext.Close (_ : LongPollWatchContext) : Option String :=
  none

/-- Reply (watcher.go lines 146-151): guarded by the `sync.Once` latch, the
first call sends the response on `finishChan` and closes it; any later call
does nothing.  The second component is the list of messages sent on the
channel by this call. -/
def LongPollWatchContext.Reply (c : LongPollWatchContext)
    (rsp : ConfigClientResponse) : LongPollWatchContext × List ConfigClientResponse :=
  if c.onceDone then (c, [])
  else ({ c with onceDone := true, chanSent := c.chanSent ++ [rsp], chanClosed := true }, [rsp])

/-- The watch center state (watcher.go lines 154-164): clientId → context
and fileId → set of clientIds.  The file cache is an external collaborator
and is passed to the operations that consult it. -/
structure WatchCenter where
  clients : List (String × LongPollWatchContext)
  watchers : List (FileId × List String)
deriving DecidableEq, Repr

/-- The per-file bucket-cleanup loop shared by RemoveAllWatcher and
RemoveWatcher (watcher.go lines 270-277 and 290-297): for each file, load
its bucket and, when present, remove the client from it. -/
def removeFromBuckets (clientId : String) :
    List (FileId × List String) → List ClientConfigFileInfo → List (FileId × List String)
  | ws, [] => ws
  | ws, file :: rest =>
    let watchFileId := GenFileId file.nspace file.group file.fileName
    let ws2 := match alookup ws watchFileId with
      | none => ws
      | some bucket => aset ws watchFileId (setRemove bucket clientId)
    removeFromBuckets clientId ws2 rest

/-- AddWatcher (watcher.go lines 245-261): get or create the client's
context, then for each file append the interest entry and add the client to
the file's bucket (creating the bucket if absent). -/
def AddWatcher (wc : WatchCenter) (clientId : String)
    (watchFiles : List ClientConfigFileInfo)
    (factory : String → LongPollWatchContext) : WatchCenter :=
  let ctx0 := match alookup wc.clients clientId with
    | some c => c
    | none => factory clientId
  let r := watchFiles.foldl
    (fun (acc : LongPollWatchContext × List (FileId × List String)) file =>
      let fileKey := GenFileId file.nspace file.group file.fileName
      let c := acc.1.AppendInterest file
      let bucket := (alookup acc.2 fileKey).getD []
      (c, aset acc.2 fileKey (setAdd bucket clientId)))
    (ctx0, wc.watchers)
  { clients := aset wc.clients clientId r.1, watchers := r.2 }

/-- RemoveAllWatcher (watcher.go lines 264-278): delete the client from the
client index; if it was absent, return unchanged.  Otherwise call the
(effect-free) Close hook and remove the client from the bucket of every
file in its interest set. -/
def RemoveAllWatcher (wc : WatchCenter) (clientId : String) : WatchCenter :=
  match alookup wc.clients clientId with
  | none => wc
  | some oldVal =>
    { clients := adel wc.clients clientId
      watchers := removeFromBuckets clientId wc.watchers oldVal.ListWatchFiles }

/-- RemoveWatcher (watcher.go lines 281-298): delete the client from the
client index (calling the effect-free Close hook if it was present); if the
given file list is empty return, otherwise remove the client from each
listed file's bucket. -/
def RemoveWatcher (wc : WatchCenter) (clientId : String)
    (watchConfigFiles : List ClientConfigFileInfo) : WatchCenter :=
  let clients := adel wc.clients clientId
  if watchConfigFiles.length = 0 then
    { wc with clients := clients }
  else
    { clients := clients
      watchers := removeFromBuckets clientId wc.watchers watchConfigFiles }

/-- The quick-response scan loop of checkQuickResponseClient (watcher.go
lines 208-230), iterating the watched files in order: a file with an empty
namespace, group or file name returns BadRequest; otherwise the cache is
consulted and, when the active release should notify this context, an
immediate success response built from the release is returned. -/
def quickResponseLoop (cache : List (FileId × SimpleConfigFileRelease))
    (watchCtx : LongPollWatchContext) :
    List ClientConfigFileInfo → Option ConfigClientResponse
  | [] => none
  | configFile :: rest =>
    if configFile.nspace = "" ∨ configFile.group = "" ∨ configFile.fileName = "" then
      some (NewConfigClientResponseWithInfo Code.BadRequest
        "namespace & group & fileName can not be empty")
    else
      match alookup cache (GenFileId configFile.nspace configFile.group configFile.fileName) with
      | some release =>
        if watchCtx.ShouldNotify release then
          some (NewConfigClientResponse Code.ExecuteSuccess
            (some ⟨configFile.nspace, configFile.group, configFile.fileName,
              release.version, release.md5, release.name⟩))
        else quickResponseLoop cache watchCtx rest
      | none => quickResponseLoop cache watchCtx rest

/-- checkQuickResponseClient (watcher.go lines 202-232).  The external
`fileCache.GetActiveRelease` collaborator is modelled as an association
list from file identity to active release. -/
def checkQuickResponseClient (cache : List (FileId × SimpleConfigFileRelease))
    (watchCtx : LongPollWatchContext) : Option ConfigClientResponse :=
  let watchFiles := watchCtx.ListWatchFiles
  if watchFiles.length = 0 then
    some (NewConfigClientResponse0 Code.InvalidWatchConfigFileFormat)
  else
    quickResponseLoop cache watchCtx watchFiles

/-- The body of the `clientIds.Range` closure in notifyToWatchers
(watcher.go lines 312-329), iterated over a snapshot of the bucket: a
missing client is opportunistically removed from the bucket; a present one
is replied to when `ShouldNotify` holds, and, being once-only, is then
deleted from the client index before `RemoveAllWatcher` is invoked on it. -/
def notifyClient (publish : SimpleConfigFileRelease) (watchFileId : FileId)
    (response : ConfigClientResponse) (wc : WatchCenter)
    (log : List (String × ConfigClientResponse)) (clientId : String) :
    WatchCenter × List (String × ConfigClientResponse) :=
  match alookup wc.clients clientId with
  | none =>
    let watchers := match alookup wc.watchers watchFileId with
      | none => wc.watchers
      | some bucket => aset wc.watchers watchFileId (setRemove bucket clientId)
    ({ wc with watchers := watchers }, log)
  | some watchCtx =>
    let step1 :=
      if watchCtx.ShouldNotify publish then
        let r := watchCtx.Reply response
        ({ wc with clients := aset wc.clients clientId r.1 },
          log ++ r.2.map (fun rsp => (clientId, rsp)))
      else (wc, log)
    if watchCtx.IsOnce then
      let wc2 := { step1.1 with clients := adel step1.1.clients clientId }
      (RemoveAllWatcher wc2 watchCtx.ClientID, step1.2)
    else step1

def notifyLoop (publish : SimpleConfigFileRelease) (watchFileId : FileId)
    (response : ConfigClientResponse) :
    WatchCenter → List (String × ConfigClientResponse) → List String →
    WatchCenter × List (String × ConfigClientResponse)
  | wc, log, [] => (wc, log)
  | wc, log, clientId :: rest =>
    let s := notifyClient publish watchFileId response wc log clientId
    notifyLoop publish watchFileId response s.1 s.2 rest

/-- notifyToWatchers (watcher.go lines 300-330): resolve the published
file's bucket (no-op when absent), build the single shared success
response, and run the dispatch loop over the bucket's members.  The second
component is the list of channel sends performed. -/
def notifyToWatchers (wc : WatchCenter) (publishConfigFile : SimpleConfigFileRelease) :
    WatchCenter × List (String × ConfigClientResponse) :=
  let watchFileId := GenFileId publishConfigFile.nspace publishConfigFile.group
    publishConfigFile.fileName
  match alookup wc.watchers watchFileId with
  | none => (wc, [])
  | some clientIds =>
    let response := NewConfigClientResponse Code.ExecuteSuccess
      (some publishConfigFile.ToSpecNotifyClientRequest)
    notifyLoop publishConfigFile watchFileId response wc [] clientIds

/-- The per-expired-context removal loop of the sweeper (watcher.go lines
357-361): reply with the no-change sentinel, then fully remove via
RemoveAllWatcher. -/
def sweepLoop : WatchCenter → List (String × ConfigClientResponse) →
    List LongPollWatchContext → WatchCenter × List (String × ConfigClientResponse)
  | wc, log, [] => (wc, log)
  | wc, log, watchCtx :: rest =>
    let r := watchCtx.Reply notModifiedResponse
    let wc2 := { wc with clients := aset wc.clients watchCtx.ClientID r.1 }
    sweepLoop (RemoveAllWatcher wc2 watchCtx.ClientID)
      (log ++ r.2.map (fun rsp => (watchCtx.ClientID, rsp))) rest

/-- One tick of startHandleTimeoutRequestWorker (watcher.go lines 344-361):
skip when no clients are live, otherwise snapshot every context for which
`ShouldExpire` holds and run the removal loop over the snapshot. -/
def handleTimeoutTick (wc : WatchCenter) (tNow : Nat) :
    WatchCenter × List (String × ConfigClientResponse) :=
  if wc.clients.length = 0 then (wc, [])
  else
    let waitRemove := (wc.clients.filter (fun p => p.2.ShouldExpire tNow)).map Prod.snd
    sweepLoop wc [] waitRemove

/-- Well-formedness of a context's interest map: every entry is stored
under its own canonical key and keys are unique — the invariant maintained
by `AppendInterest`/`RemoveInterest` on a Go map. -/
def CtxWF (c : LongPollWatchContext) : Prop :=
  (∀ p ∈ c.watchConfigFiles, p.1 = BuildKeyForClientConfigFileInfo p.2) ∧
    (c.watchConfigFiles.map Prod.fst).Nodup

/-- Well-formedness of the external cache model: the active release stored
for a file identity carries that identity. -/
def CacheWF (cache : List (FileId × SimpleConfigFileRelease)) : Prop :=
  ∀ p ∈ cache, p.2.ActiveKey = p.1

/-- Well-formedness of the client index: each context is stored under its
own client id, and keys are unique — the invariant of a Go map keyed by
`ClientID()`. -/
def CenterWF (wc : WatchCenter) : Prop :=
  (∀ p ∈ wc.clients, p.2.clientId = p.1) ∧ (wc.clients.map Prod.fst).Nodup

/-- Boolean per-file fast-path trigger: the cache holds an active release
of the file whose version is strictly above the declared version. -/
def newerB (cache : List (FileId × SimpleConfigFileRelease))
    (f : ClientConfigFileInfo) : Bool :=
  match alookup cache (GenFileId f.nspace f.group f.fileName) with
  | some r => decide (f.version < r.version)
  | none => false

/-- Boolean fast-path trigger: some watched file has a cached active
release whose version is strictly above the declared version. -/
def hasNewerReleaseB (cache : List (FileId × SimpleConfigFileRelease))
    (c : LongPollWatchContext) : Bool :=
  c.ListWatchFiles.any (newerB cache)

/-! Concrete states used to exercise the operations on explicit inputs. -/

/-- A file identity used by the concrete examples. -/
def fidF : FileId := ⟨"ns", "g", "f"⟩

/-- A fresh, unresolved context with no interest, client id "c1". -/
def ctxA : LongPollWatchContext :=
  ⟨"c1", false, 0, [], false, []⟩

/-- Interest entry for `fidF` declaring version 1. -/
def infoV1 : ClientConfigFileInfo := ⟨"ns", "g", "f", 1, "", ""⟩

/-- Interest entry for `fidF` declaring version 5. -/
def infoV5 : ClientConfigFileInfo := ⟨"ns", "g", "f", 5, "", ""⟩

/-- Interest entry for `fidF` declaring version 9. -/
def infoV9 : ClientConfigFileInfo := ⟨"ns", "g", "f", 9, "", ""⟩

/-- A release of `fidF` at version 2. -/
def relV2 : SimpleConfigFileRelease := ⟨"ns", "g", "f", 2, "m2", "f"⟩

/-- A release of `fidF` at version 3. -/
def relV3 : SimpleConfigFileRelease := ⟨"ns", "g", "f", 3, "m3", "f"⟩

/-- Context "cb" interested in `fidF` at declared version 5, unresolved. -/
def ctxB : LongPollWatchContext :=
  ⟨"cb", false, 0, [], false, [(fidF, infoV5)]⟩

/-- Center with the single client "cb" and its bucket entry. -/
def wcB : WatchCenter := ⟨[("cb", ctxB)], [(fidF, ["cb"])]⟩

/-- Context "cc" interested in `fidF` at declared version 1, unresolved. -/
def ctxC : LongPollWatchContext :=
  ⟨"cc", false, 0, [], false, [(fidF, infoV1)]⟩

/-- Center with the single client "cc" and its bucket entry. -/
def wcC : WatchCenter := ⟨[("cc", ctxC)], [(fidF, ["cc"])]⟩

/-- Context "cd" for the two-client dispatch example: declared version 1. -/
def ctxD : LongPollWatchContext :=
  ⟨"cd", false, 0, [], false, [(fidF, infoV1)]⟩

/-- Context "ce" for the two-client dispatch example: declared version 9. -/
def ctxE : LongPollWatchContext :=
  ⟨"ce", false, 0, [], false, [(fidF, infoV9)]⟩

/-- Center with clients "cd" (stale) and "ce" (up to date) watching `fidF`. -/
def wcDE : WatchCenter :=
  ⟨[("cd", ctxD), ("ce", ctxE)], [(fidF, ["cd", "ce"])]⟩

/-- A malformed interest entry: empty namespace. -/
def badInfo : ClientConfigFileInfo := ⟨"", "g", "bad", 0, "", ""⟩

/-- Context "cq" listing a well-formed stale entry before a malformed one. -/
def ctxQ : LongPollWatchContext :=
  ⟨"cq", false, 0, [], false, [(fidF, infoV1), (⟨"", "g", "bad"⟩, badInfo)]⟩

/-- Cache holding an active release of `fidF` at version 2. -/
def cacheF2 : List (FileId × SimpleConfigFileRelease) := [(fidF, relV2)]

/-- Context "cm" listing a malformed entry first. -/
def ctxM : LongPollWatchContext :=
  ⟨"cm", false, 0, [], false, [(⟨"", "g", "bad"⟩, badInfo), (fidF, infoV1)]⟩

/-! Basic lemmas about the association-list map and set operations. -/

theorem alookup_cons {α β : Type} [DecidableEq α] (p : α × β) (rest : List (α × β)) (k : α) :
    alookup (p :: rest) k = if p.1 = k then some p.2 else alookup rest k :=
  rfl

theorem aset_cons {α β : Type} [DecidableEq α] (p : α × β) (rest : List (α × β))
    (k : α) (v : β) :
    aset (p :: rest) k v = if p.1 = k then (k, v) :: rest else p :: aset rest k v :=
  rfl

theorem adel_cons {α β : Type} [DecidableEq α] (p : α × β) (rest : List (α × β)) (k : α) :
    adel (p :: rest) k = if p.1 = k then adel rest k else p :: adel rest k := by
  by_cases h : p.1 = k <;> simp [adel, List.filter_cons, h]

theorem alookup_aset_self {α β : Type} [DecidableEq α] (l : List (α × β)) (k : α) (v : β) :
    alookup (aset l k v) k = some v := by
  induction l with
  | nil => simp [aset, alookup]
  | cons p rest ih =>
    rw [aset_cons]
    by_cases h : p.1 = k
    · rw [if_pos h, alookup_cons, if_pos rfl]
    · rw [if_neg h, alookup_cons, if_neg h]
      exact ih

theorem alookup_aset_ne {α β : Type} [DecidableEq α] (l : List (α × β)) (k k2 : α) (v : β)
    (hne : k2 ≠ k) : alookup (aset l k v) k2 = alookup l k2 := by
  have hkk : ¬ k = k2 := fun h => hne h.symm
  induction l with
  | nil => simp [aset, alookup, hkk]
  | cons p rest ih =>
    rw [aset_cons]
    by_cases h : p.1 = k
    · have hp2 : ¬ p.1 = k2 := by rw [h]; exact hkk
      rw [if_pos h, alookup_cons, alookup_cons, if_neg hkk, if_neg hp2]
    · rw [if_neg h, alookup_cons, alookup_cons]
      by_cases h2 : p.1 = k2
      · rw [if_pos h2, if_pos h2]
      · rw [if_neg h2, if_neg h2]
        exact ih

theorem alookup_adel_self {α β : Type} [DecidableEq α] (l : List (α × β)) (k : α) :
    alookup (adel l k) k = none := by
  induction l with
  | nil => rfl
  | cons p rest ih =>
    rw [adel_cons]
    by_cases h : p.1 = k
    · rw [if_pos h]; exact ih
    · rw [if_neg h, alookup_cons, if_neg h]; exact ih

theorem alookup_adel_ne {α β : Type} [DecidableEq α] (l : List (α × β)) (k k2 : α)
    (hne : k2 ≠ k) : alookup (adel l k) k2 = alookup l k2 := by
  induction l with
  | nil => rfl
  | cons p rest ih =>
    rw [adel_cons]
    by_cases h : p.1 = k
    · have hp2 : ¬ p.1 = k2 := by rw [h]; exact fun hh => hne hh.symm
      rw [if_pos h, alookup_cons, if_neg hp2]
      exact ih
    · rw [if_neg h, alookup_cons, alookup_cons]
      by_cases h2 : p.1 = k2
      · rw [if_pos h2, if_pos h2]
      · rw [if_neg h2, if_neg h2]
        exact ih

theorem alookup_adel_some {α β : Type} [DecidableEq α] (l : List (α × β)) (k k2 : α) (v : β)
    (h : alookup (adel l k) k2 = some v) : alookup l k2 = some v := by
  by_cases hk : k2 = k
  · rw [hk, alookup_adel_self] at h; exact absurd h (by simp)
  · rwa [alookup_adel_ne l k k2 hk] at h

theorem alookup_some_mem {α β : Type} [DecidableEq α] (l : List (α × β)) (k : α) (v : β)
    (h : alookup l k = some v) : (k, v) ∈ l := by
  induction l with
  | nil => cases h
  | cons p rest ih =>
    rw [alookup_cons] at h
    by_cases hk : p.1 = k
    · rw [if_pos hk] at h
      injection h with h2
      have hp : (k, v) = p := by rw [← hk, ← h2]
      rw [hp]
      exact List.mem_cons_self p rest
    · rw [if_neg hk] at h
      exact List.mem_cons_of_mem p (ih h)

theorem alookup_mem_nodup {α β : Type} [DecidableEq α] (l : List (α × β))
    (p : α × β) (hnd : (l.map Prod.fst).Nodup) (hmem : p ∈ l) :
    alookup l p.1 = some p.2 := by
  induction l with
  | nil => cases hmem
  | cons q rest ih =>
    rw [List.map_cons, List.nodup_cons] at hnd
    rcases List.mem_cons.mp hmem with h | h
    · rw [h, alookup_cons, if_pos rfl]
    · have hq : ¬ q.1 = p.1 := by
        intro he
        exact hnd.1 (he ▸ List.mem_map_of_mem Prod.fst h)
      rw [alookup_cons, if_neg hq]
      exact ih hnd.2 h

theorem mem_setRemove (s : List String) (x y : String) :
    y ∈ setRemove s x ↔ y ∈ s ∧ y ≠ x := by
  simp [setRemove]

theorem not_mem_setRemove_self (s : List String) (x : String) :
    x ∉ setRemove s x := by
  simp [mem_setRemove]

/-! Lemmas about Reply's effect on the non-channel fields. -/

theorem reply_watchConfigFiles (c : LongPollWatchContext) (rsp : ConfigClientResponse) :
    (c.Reply rsp).1.watchConfigFiles = c.watchConfigFiles := by
  unfold LongPollWatchContext.Reply
  split <;> rfl

theorem reply_clientId (c : LongPollWatchContext) (rsp : ConfigClientResponse) :
    (c.Reply rsp).1.clientId = c.clientId := by
  unfold LongPollWatchContext.Reply
  split <;> rfl

theorem reply_onceDone (c : LongPollWatchContext) (rsp : ConfigClientResponse) :
    (c.Reply rsp).1.onceDone = true := by
  unfold LongPollWatchContext.Reply
  split <;> first | assumption | rfl

/-! Lemmas about the bucket-cleanup loop. -/

theorem removeFromBuckets_cons (clientId : String) (ws : List (FileId × List String))
    (f : ClientConfigFileInfo) (rest : List ClientConfigFileInfo) :
    removeFromBuckets clientId ws (f :: rest) =
      removeFromBuckets clientId
        (match alookup ws (GenFileId f.nspace f.group f.fileName) with
          | none => ws
          | some bucket =>
            aset ws (GenFileId f.nspace f.group f.fileName) (setRemove bucket clientId))
        rest :=
  rfl

theorem removeFromBuckets_preserves_free (clientId x : String) (k : FileId)
    (files : List ClientConfigFileInfo) :
    ∀ ws, (∀ b, alookup ws k = some b → x ∉ b) →
      ∀ b, alookup (removeFromBuckets clientId ws files) k = some b → x ∉ b := by
  induction files with
  | nil => intro ws h b hb; exact h b hb
  | cons f rest ih =>
    intro ws h b hb
    cases hcase : alookup ws (GenFileId f.nspace f.group f.fileName) with
    | none =>
      rw [removeFromBuckets_cons] at hb
      simp only [hcase] at hb
      exact ih ws h b hb
    | some bucket =>
      rw [removeFromBuckets_cons] at hb
      simp only [hcase] at hb
      refine ih _ ?_ b hb
      intro b2 hb2
      by_cases hk : k = GenFileId f.nspace f.group f.fileName
      · rw [hk, alookup_aset_self] at hb2
        injection hb2 with hb2e
        intro hx
        rw [← hb2e] at hx
        exact h bucket (by rw [hk]; exact hcase) ((mem_setRemove bucket clientId x).mp hx).1
      · rw [alookup_aset_ne _ _ _ _ hk] at hb2
        exact h b2 hb2

theorem removeFromBuckets_free_self (clientId : String)
    (files : List ClientConfigFileInfo) :
    ∀ ws, ∀ f ∈ files, ∀ b,
      alookup (removeFromBuckets clientId ws files)
        (GenFileId f.nspace f.group f.fileName) = some b → clientId ∉ b := by
  induction files with
  | nil => intro ws f hf; cases hf
  | cons f0 rest ih =>
    intro ws f hf b hb
    rcases List.mem_cons.mp hf with he | hmem
    · subst he
      cases hcase : alookup ws (GenFileId f.nspace f.group f.fileName) with
      | none =>
        rw [removeFromBuckets_cons] at hb
        simp only [hcase] at hb
        refine removeFromBuckets_preserves_free clientId clientId _ rest ws ?_ b hb
        intro b2 hb2
        rw [hcase] at hb2; cases hb2
      | some bucket =>
        rw [removeFromBuckets_cons] at hb
        simp only [hcase] at hb
        refine removeFromBuckets_preserves_free clientId clientId _ rest _ ?_ b hb
        intro b2 hb2
        rw [alookup_aset_self] at hb2
        injection hb2 with hb2e
        rw [← hb2e]
        exact not_mem_setRemove_self bucket clientId
    · cases hcase : alookup ws (GenFileId f0.nspace f0.group f0.fileName) with
      | none =>
        rw [removeFromBuckets_cons] at hb
        simp only [hcase] at hb
        exact ih ws f hmem b hb
      | some bucket =>
        rw [removeFromBuckets_cons] at hb
        simp only [hcase] at hb
        exact ih _ f hmem b hb

/-! Lemmas about RemoveAllWatcher. -/

theorem removeAllWatcher_eq_of_lookup (wc : WatchCenter) (clientId : String)
    (ctx : LongPollWatchContext) (h : alookup wc.clients clientId = some ctx) :
    RemoveAllWatcher wc clientId =
      { clients := adel wc.clients clientId
        watchers := removeFromBuckets clientId wc.watchers ctx.ListWatchFiles } := by
  unfold RemoveAllWatcher
  rw [h]

theorem removeAllWatcher_eq_of_none (wc : WatchCenter) (clientId : String)
    (h : alookup wc.clients clientId = none) :
    RemoveAllWatcher wc clientId = wc := by
  unfold RemoveAllWatcher
  rw [h]

theorem removeAllWatcher_clients_lookup_ne (wc : WatchCenter) (clientId k : String)
    (hne : k ≠ clientId) :
    alookup (RemoveAllWatcher wc clientId).clients k = alookup wc.clients k := by
  unfold RemoveAllWatcher
  cases h : alookup wc.clients clientId with
  | none => rfl
  | some ctx => exact alookup_adel_ne _ _ _ hne

theorem removeAllWatcher_clients_subset (wc : WatchCenter) (clientId k : String)
    (v : LongPollWatchContext)
    (h : alookup (RemoveAllWatcher wc clientId).clients k = some v) :
    alookup wc.clients k = some v := by
  revert h
  unfold RemoveAllWatcher
  cases hc : alookup wc.clients clientId with
  | none => intro h; exact h
  | some ctx => intro h; exact alookup_adel_some _ _ _ _ h

theorem removeAllWatcher_preserves_clients_none (wc : WatchCenter) (clientId k : String)
    (h : alookup wc.clients k = none) :
    alookup (RemoveAllWatcher wc clientId).clients k = none := by
  cases hv : alookup (RemoveAllWatcher wc clientId).clients k with
  | none => rfl
  | some v => rw [removeAllWatcher_clients_subset wc clientId k v hv] at h; cases h

theorem removeAllWatcher_preserves_bucket_free (wc : WatchCenter) (clientId x : String)
    (k : FileId) (h : ∀ b, alookup wc.watchers k = some b → x ∉ b) :
    ∀ b, alookup (RemoveAllWatcher wc clientId).watchers k = some b → x ∉ b := by
  unfold RemoveAllWatcher
  cases hc : alookup wc.clients clientId with
  | none => exact h
  | some ctx => exact removeFromBuckets_preserves_free clientId x k _ _ h

/-- C1 helper fact is inlined; main single-fire theorem below. -/
theorem reply_fires_iff (c : LongPollWatchContext) (rsp : ConfigClientResponse) :
    (c.Reply rsp).2 = if c.onceDone then [] else [rsp] := by
  unfold LongPollWatchContext.Reply
  split <;> rfl

theorem reply_sends_of_done (c : LongPollWatchContext) (rsp : ConfigClientResponse)
    (h : c.onceDone = true) : (c.Reply rsp).2 = [] := by
  rw [reply_fires_iff, h]
  rfl

theorem reply_sends_of_not_done (c : LongPollWatchContext) (rsp : ConfigClientResponse)
    (h : c.onceDone = false) : (c.Reply rsp).2 = [rsp] := by
  rw [reply_fires_iff, h]
  rfl

/-- C1: for every LongPollWatchContext, Reply has an observable effect on
the delivery slot at most once — the first call (latch unfired) sends the
response on the channel and closes it, a call with the latch fired is a
complete no-op, and any call made after a first call is a no-op, whatever
its argument. -/
theorem c1_reply_single_fire (c : LongPollWatchContext) (r1 r2 : ConfigClientResponse) :
    (c.onceDone = false →
      (c.Reply r1).2 = [r1] ∧ (c.Reply r1).1.chanSent = c.chanSent ++ [r1] ∧
        (c.Reply r1).1.chanClosed = true ∧ (c.Reply r1).1.onceDone = true) ∧
    (c.onceDone = true → c.Reply r1 = (c, [])) ∧
    (c.Reply r1).1.Reply r2 = ((c.Reply r1).1, []) := by
  unfold LongPollWatchContext.Reply
  cases h : c.onceDone <;> simp [h]

/-- Witness for C1 at a concrete fresh context. -/
theorem c1_reply_single_fire_witness :
    (ctxA.Reply notModifiedResponse).2 = [notModifiedResponse] ∧
      (ctxA.Reply notModifiedResponse).1.Reply notModifiedResponse
        = ((ctxA.Reply notModifiedResponse).1, []) := by
  refine ⟨((c1_reply_single_fire ctxA notModifiedResponse notModifiedResponse).1 (by decide)).1,
    (c1_reply_single_fire ctxA notModifiedResponse notModifiedResponse).2.2⟩

/-- C5: ShouldNotify is true exactly when the interest map holds an entry
for the event's file identity whose declared version is strictly below the
event's version (so equal or greater declared versions yield false). -/
theorem c5_should_notify_iff (c : LongPollWatchContext) (e : SimpleConfigFileRelease) :
    c.ShouldNotify e = true ↔
      ∃ watchFile, alookup c.watchConfigFiles e.ActiveKey = some watchFile ∧
        watchFile.version < e.version := by
  unfold LongPollWatchContext.ShouldNotify
  cases h : alookup c.watchConfigFiles e.ActiveKey <;> simp [h]

/-- C10: ShouldExpire of the single-shot long-poll context returns true at
every time value, independently of the finishTime field, and IsOnce is
always true. -/
theorem c10_should_expire_always (c : LongPollWatchContext) (now : Nat) :
    c.ShouldExpire now = true ∧ c.IsOnce = true :=
  ⟨rfl, rfl⟩

/-- C2 failing input: client "cb" holds interest in `fidF` at declared
version 5 and an event for `fidF` at version 3 is dispatched.  ShouldNotify
is false, so no reply is sent (the send log is empty and the latch is still
unfired), yet notifyToWatchers deletes the registration from the client
index: it is removed undelivered, contradicting the claim. -/
theorem c2_removed_undelivered :
    ctxB.onceDone = false ∧
      (notifyToWatchers wcB relV3).2 = [] ∧
      alookup (notifyToWatchers wcB relV3).1.clients "cb" = none := by
  decide

/-- C3 failing input: client "cc" watches `fidF` at declared version 1 and
an event for `fidF` at version 2 is dispatched.  After notifyToWatchers
returns, "cc" has been removed from the client index but is still present
in `fidF`'s interest bucket, because the dispatcher deletes the client from
wc.clients before calling RemoveAllWatcher, which then early-returns
without bucket cleanup. -/
theorem c3_stale_bucket_after_notify :
    alookup (notifyToWatchers wcC relV2).1.clients "cc" = none ∧
      alookup (notifyToWatchers wcC relV2).1.watchers fidF = some ["cc"] := by
  decide

/-- C6: after RemoveAllWatcher on a registered client, the client is absent
from the client index, it has been removed from the interest bucket of
every file identity in the registration's interest set, the Close hook (a
nil-returning no-op for LongPollWatchContext) reports no error, and running
RemoveAllWatcher again for the same client changes nothing. -/
theorem c6_remove_all_watcher (wc : WatchCenter) (clientId : String)
    (ctx : LongPollWatchContext) (h : alookup wc.clients clientId = some ctx) :
    alookup (RemoveAllWatcher wc clientId).clients clientId = none ∧
    (∀ f ∈ ctx.ListWatchFiles, ∀ bucket,
      alookup (RemoveAllWatcher wc clientId).watchers
        (GenFileId f.nspace f.group f.fileName) = some bucket → clientId ∉ bucket) ∧
    ctx.Close = none ∧
    RemoveAllWatcher (RemoveAllWatcher wc clientId) clientId = RemoveAllWatcher wc clientId := by
  have heq := removeAllWatcher_eq_of_lookup wc clientId ctx h
  have hnone : alookup (RemoveAllWatcher wc clientId).clients clientId = none := by
    rw [heq]; exact alookup_adel_self _ _
  refine ⟨hnone, ?_, rfl, removeAllWatcher_eq_of_none _ _ hnone⟩
  intro f hf bucket hb
  rw [heq] at hb
  exact removeFromBuckets_free_self clientId _ _ f hf bucket hb

/-- Witness for C6 at the concrete center `wcC`. -/
theorem c6_remove_all_watcher_witness :
    alookup (RemoveAllWatcher wcC "cc").clients "cc" = none ∧
    (∀ f ∈ ctxC.ListWatchFiles, ∀ bucket,
      alookup (RemoveAllWatcher wcC "cc").watchers
        (GenFileId f.nspace f.group f.fileName) = some bucket → "cc" ∉ bucket) ∧
    ctxC.Close = none ∧
    RemoveAllWatcher (RemoveAllWatcher wcC "cc") "cc" = RemoveAllWatcher wcC "cc" :=
  c6_remove_all_watcher wcC "cc" ctxC (by decide)

/-! Lemmas about the dispatch loop of notifyToWatchers. -/

section NotifyLemmas

variable (publish : SimpleConfigFileRelease) (watchFileId : FileId)
variable (response : ConfigClientResponse)

theorem notifyClient_none (wc : WatchCenter) (log : List (String × ConfigClientResponse))
    (clientId : String) (h : alookup wc.clients clientId = none) :
    notifyClient publish watchFileId response wc log clientId =
      ({ wc with watchers := match alookup wc.watchers watchFileId with
          | none => wc.watchers
          | some bucket => aset wc.watchers watchFileId (setRemove bucket clientId) },
        log) := by
  unfold notifyClient
  rw [h]

theorem notifyClient_some_notify (wc : WatchCenter)
    (log : List (String × ConfigClientResponse)) (clientId : String)
    (watchCtx : LongPollWatchContext) (h : alookup wc.clients clientId = some watchCtx)
    (hsn : watchCtx.ShouldNotify publish = true) :
    notifyClient publish watchFileId response wc log clientId =
      (RemoveAllWatcher
        { wc with clients := adel (aset wc.clients clientId (watchCtx.Reply response).1) clientId }
        watchCtx.ClientID,
        log ++ (watchCtx.Reply response).2.map (fun rsp => (clientId, rsp))) := by
  unfold notifyClient
  rw [h]
  simp [hsn, LongPollWatchContext.IsOnce]

theorem notifyClient_some_nonotify (wc : WatchCenter)
    (log : List (String × ConfigClientResponse)) (clientId : String)
    (watchCtx : LongPollWatchContext) (h : alookup wc.clients clientId = some watchCtx)
    (hsn : watchCtx.ShouldNotify publish = false) :
    notifyClient publish watchFileId response wc log clientId =
      (RemoveAllWatcher { wc with clients := adel wc.clients clientId } watchCtx.ClientID,
        log) := by
  unfold notifyClient
  rw [h]
  simp [hsn, LongPollWatchContext.IsOnce]

theorem notifyClient_log_mono (wc : WatchCenter)
    (log : List (String × ConfigClientResponse)) (clientId : String)
    (e : String × ConfigClientResponse) (he : e ∈ log) :
    e ∈ (notifyClient publish watchFileId response wc log clientId).2 := by
  cases h : alookup wc.clients clientId with
  | none => rw [notifyClient_none publish watchFileId response wc log clientId h]; exact he
  | some watchCtx =>
    cases hsn : watchCtx.ShouldNotify publish with
    | false =>
      rw [notifyClient_some_nonotify publish watchFileId response wc log clientId watchCtx h hsn]
      exact he
    | true =>
      rw [notifyClient_some_notify publish watchFileId response wc log clientId watchCtx h hsn]
      exact List.mem_append_left _ he

theorem notifyClient_clients_subset (wc : WatchCenter)
    (log : List (String × ConfigClientResponse)) (clientId : String)
    (c : String) (v : LongPollWatchContext)
    (hv : alookup (notifyClient publish watchFileId response wc log clientId).1.clients c
      = some v) :
    alookup wc.clients c = some v := by
  cases h : alookup wc.clients clientId with
  | none =>
    rw [notifyClient_none publish watchFileId response wc log clientId h] at hv
    exact hv
  | some watchCtx =>
    cases hsn : watchCtx.ShouldNotify publish with
    | false =>
      rw [notifyClient_some_nonotify publish watchFileId response wc log clientId watchCtx h hsn]
        at hv
      exact alookup_adel_some _ _ _ _ (removeAllWatcher_clients_subset _ _ _ _ hv)
    | true =>
      rw [notifyClient_some_notify publish watchFileId response wc log clientId watchCtx h hsn]
        at hv
      have h1 := removeAllWatcher_clients_subset _ _ _ _ hv
      have hcne : c ≠ clientId := by
        intro he
        rw [he, alookup_adel_self] at h1
        cases h1
      have h2 := alookup_adel_some _ _ _ _ h1
      rwa [alookup_aset_ne _ _ _ _ hcne] at h2

theorem notifyClient_preserves_lookup (wc : WatchCenter)
    (log : List (String × ConfigClientResponse)) (clientId : String)
    (c : String) (hne : c ≠ clientId)
    (hctx : ∀ ctx, alookup wc.clients clientId = some ctx → ctx.ClientID ≠ c) :
    alookup (notifyClient publish watchFileId response wc log clientId).1.clients c
      = alookup wc.clients c := by
  cases h : alookup wc.clients clientId with
  | none => rw [notifyClient_none publish watchFileId response wc log clientId h]
  | some watchCtx =>
    have hid : c ≠ watchCtx.ClientID := fun he => hctx watchCtx h he.symm
    cases hsn : watchCtx.ShouldNotify publish with
    | false =>
      rw [notifyClient_some_nonotify publish watchFileId response wc log clientId watchCtx h hsn]
      rw [removeAllWatcher_clients_lookup_ne _ _ _ hid]
      exact alookup_adel_ne _ _ _ hne
    | true =>
      rw [notifyClient_some_notify publish watchFileId response wc log clientId watchCtx h hsn]
      rw [removeAllWatcher_clients_lookup_ne _ _ _ hid]
      rw [alookup_adel_ne _ _ _ hne]
      exact alookup_aset_ne _ _ _ _ hne

theorem notifyClient_log_new (wc : WatchCenter)
    (log : List (String × ConfigClientResponse)) (clientId : String)
    (e : String × ConfigClientResponse)
    (he : e ∈ (notifyClient publish watchFileId response wc log clientId).2) :
    e ∈ log ∨ (e = (clientId, response) ∧ ∃ ctx, alookup wc.clients clientId = some ctx ∧
      ctx.ShouldNotify publish = true ∧ ctx.onceDone = false) := by
  cases h : alookup wc.clients clientId with
  | none =>
    rw [notifyClient_none publish watchFileId response wc log clientId h] at he
    exact Or.inl he
  | some watchCtx =>
    cases hsn : watchCtx.ShouldNotify publish with
    | false =>
      rw [notifyClient_some_nonotify publish watchFileId response wc log clientId watchCtx h hsn]
        at he
      exact Or.inl he
    | true =>
      rw [notifyClient_some_notify publish watchFileId response wc log clientId watchCtx h hsn]
        at he
      rcases List.mem_append.mp he with h1 | h2
      · exact Or.inl h1
      · cases ho : watchCtx.onceDone with
        | true =>
          rw [reply_sends_of_done watchCtx response ho] at h2
          exact absurd h2 (by simp)
        | false =>
          rw [reply_sends_of_not_done watchCtx response ho] at h2
          simp only [List.map_cons, List.map_nil, List.mem_singleton] at h2
          exact Or.inr ⟨h2, watchCtx, h.symm.trans h, hsn, ho⟩

theorem notifyClient_fires (wc : WatchCenter)
    (log : List (String × ConfigClientResponse)) (clientId : String)
    (ctx : LongPollWatchContext) (h : alookup wc.clients clientId = some ctx)
    (hsn : ctx.ShouldNotify publish = true) (ho : ctx.onceDone = false) :
    (clientId, response) ∈ (notifyClient publish watchFileId response wc log clientId).2 := by
  rw [notifyClient_some_notify publish watchFileId response wc log clientId ctx h hsn]
  refine List.mem_append_right _ ?_
  rw [reply_sends_of_not_done ctx response ho]
  simp

theorem notifyLoop_cons (wc : WatchCenter) (log : List (String × ConfigClientResponse))
    (clientId : String) (rest : List String) :
    notifyLoop publish watchFileId response wc log (clientId :: rest) =
      notifyLoop publish watchFileId response
        (notifyClient publish watchFileId response wc log clientId).1
        (notifyClient publish watchFileId response wc log clientId).2 rest :=
  rfl

theorem notifyLoop_log_mono (ids : List String) :
    ∀ wc log (e : String × ConfigClientResponse), e ∈ log →
      e ∈ (notifyLoop publish watchFileId response wc log ids).2 := by
  induction ids with
  | nil => intro wc log e he; exact he
  | cons clientId rest ih =>
    intro wc log e he
    rw [notifyLoop_cons]
    exact ih _ _ e (notifyClient_log_mono publish watchFileId response wc log clientId e he)

theorem notifyLoop_log_entries (wc0 : WatchCenter) (ids : List String) :
    ∀ wc log,
      (∀ c v, alookup wc.clients c = some v → alookup wc0.clients c = some v) →
      (∀ e ∈ log, e.2 = response ∧ ∃ ctx, alookup wc0.clients e.1 = some ctx ∧
        ctx.ShouldNotify publish = true ∧ ctx.onceDone = false) →
      ∀ e ∈ (notifyLoop publish watchFileId response wc log ids).2,
        e.2 = response ∧ ∃ ctx, alookup wc0.clients e.1 = some ctx ∧
          ctx.ShouldNotify publish = true ∧ ctx.onceDone = false := by
  induction ids with
  | nil => intro wc log _ hlog e he; exact hlog e he
  | cons clientId rest ih =>
    intro wc log hsub hlog e he
    rw [notifyLoop_cons] at he
    refine ih _ _ ?_ ?_ e he
    · intro c v hv
      exact hsub c v (notifyClient_clients_subset publish watchFileId response wc log clientId c v hv)
    · intro e2 he2
      rcases notifyClient_log_new publish watchFileId response wc log clientId e2 he2 with
        h1 | ⟨heq, ctx, hc, hsn, ho⟩
      · exact hlog e2 h1
      · rw [heq]
        exact ⟨rfl, ctx, hsub clientId ctx hc, hsn, ho⟩

theorem notifyLoop_target (wc0 : WatchCenter)
    (hwf0 : ∀ p ∈ wc0.clients, p.2.clientId = p.1) (ids : List String) :
    ∀ wc log (cid : String) (ctx : LongPollWatchContext),
      (∀ c v, alookup wc.clients c = some v → alookup wc0.clients c = some v) →
      alookup wc.clients cid = some ctx →
      ctx.ShouldNotify publish = true → ctx.onceDone = false → cid ∈ ids →
      (cid, response) ∈ (notifyLoop publish watchFileId response wc log ids).2 := by
  induction ids with
  | nil => intro wc log cid ctx _ _ _ _ hmem; cases hmem
  | cons clientId rest ih =>
    intro wc log cid ctx hsub hc hsn ho hmem
    rw [notifyLoop_cons]
    by_cases he : clientId = cid
    · subst he
      exact notifyLoop_log_mono publish watchFileId response rest _ _ _
        (notifyClient_fires publish watchFileId response wc log clientId ctx hc hsn ho)
    · have hcne : cid ≠ clientId := fun hh => he hh.symm
      have hctx2 : ∀ ctx2, alookup wc.clients clientId = some ctx2 → ctx2.ClientID ≠ cid := by
        intro ctx2 h2 hcc
        have h0 := hsub clientId ctx2 h2
        have hid : ctx2.clientId = clientId :=
          hwf0 (clientId, ctx2) (alookup_some_mem _ _ _ h0)
        have hcc2 : ctx2.clientId = cid := hcc
        exact he (hid.symm.trans hcc2)
      have hpres := notifyClient_preserves_lookup publish watchFileId response wc log
        clientId cid hcne hctx2
      have hmem2 : cid ∈ rest := by
        rcases List.mem_cons.mp hmem with hh | hh
        · exact absurd hh.symm he
        · exact hh
      refine ih _ _ cid ctx ?_ (by rw [hpres]; exact hc) hsn ho hmem2
      intro c v hv
      exact hsub c v (notifyClient_clients_subset publish watchFileId response wc log clientId c v hv)

end NotifyLemmas

theorem notifyToWatchers_eq (wc : WatchCenter) (publish : SimpleConfigFileRelease) :
    notifyToWatchers wc publish =
      match alookup wc.watchers
          (GenFileId publish.nspace publish.group publish.fileName) with
      | none => (wc, [])
      | some clientIds =>
        notifyLoop publish (GenFileId publish.nspace publish.group publish.fileName)
          (NewConfigClientResponse Code.ExecuteSuccess
            (some publish.ToSpecNotifyClientRequest))
          wc [] clientIds :=
  rfl

/-- C4: when a publish event for file F at version V is dispatched against
a well-formed center whose bucket for F covers every client whose interest
map would notify, then (1) every live (latch-unfired) registration with
`ShouldNotify` true for the event receives the shared file-changed success
response, (2) every send performed by the dispatch carries that one shared
response value, which has code ExecuteSuccess and a payload carrying
version V, and (3) a registration with `ShouldNotify` false (declared
version at or above V, or no interest in F) receives nothing. -/
theorem c4_notify_dispatch (wc : WatchCenter) (publish : SimpleConfigFileRelease)
    (hwf : CenterWF wc)
    (hcov : ∀ p ∈ wc.clients, p.2.ShouldNotify publish = true →
      p.1 ∈ (alookup wc.watchers
        (GenFileId publish.nspace publish.group publish.fileName)).getD []) :
    (∀ p ∈ wc.clients, p.2.ShouldNotify publish = true → p.2.onceDone = false →
      (p.1, NewConfigClientResponse Code.ExecuteSuccess
          (some publish.ToSpecNotifyClientRequest))
        ∈ (notifyToWatchers wc publish).2) ∧
    (∀ e ∈ (notifyToWatchers wc publish).2,
      e.2 = NewConfigClientResponse Code.ExecuteSuccess
          (some publish.ToSpecNotifyClientRequest) ∧
      e.2.code = Code.ExecuteSuccess ∧
      ∃ cf, e.2.configFile = some cf ∧ cf.version = publish.version) ∧
    (∀ p ∈ wc.clients, p.2.ShouldNotify publish = false →
      ∀ r, (p.1, r) ∉ (notifyToWatchers wc publish).2) := by
  have heq := notifyToWatchers_eq wc publish
  cases hbuck : alookup wc.watchers
      (GenFileId publish.nspace publish.group publish.fileName) with
  | none =>
    simp only [hbuck] at heq
    rw [heq]
    refine ⟨?_, ?_, ?_⟩
    · intro p hp hsn _
      have hco := hcov p hp hsn
      rw [hbuck] at hco
      exact absurd hco (List.not_mem_nil _)
    · intro e he
      exact absurd he (List.not_mem_nil _)
    · intro p _ _ r hr
      exact absurd hr (List.not_mem_nil _)
  | some clientIds =>
    simp only [hbuck] at heq
    rw [heq]
    refine ⟨?_, ?_, ?_⟩
    · intro p hp hsn ho
      have hmem : p.1 ∈ clientIds := by
        have hco := hcov p hp hsn
        rw [hbuck] at hco
        exact hco
      have hlk : alookup wc.clients p.1 = some p.2 := alookup_mem_nodup _ p hwf.2 hp
      exact notifyLoop_target publish _ _ wc hwf.1 clientIds wc [] p.1 p.2
        (fun c v hv => hv) hlk hsn ho hmem
    · intro e he
      have hq := notifyLoop_log_entries publish _ _ wc clientIds wc []
        (fun c v hv => hv) (by intro e2 he2; exact absurd he2 (List.not_mem_nil _)) e he
      refine ⟨hq.1, ?_, ?_⟩
      · rw [hq.1]; rfl
      · rw [hq.1]
        exact ⟨publish.ToSpecNotifyClientRequest, rfl, rfl⟩
    · intro p hp hsn r hr
      have hq := notifyLoop_log_entries publish _ _ wc clientIds wc []
        (fun c v hv => hv) (by intro e2 he2; exact absurd he2 (List.not_mem_nil _)) (p.1, r) hr
      rcases hq.2 with ⟨ctx, hc, hsn2, _⟩
      have hlk : alookup wc.clients p.1 = some p.2 := alookup_mem_nodup _ p hwf.2 hp
      rw [hlk] at hc
      injection hc with hce
      rw [← hce] at hsn2
      rw [hsn] at hsn2
      cases hsn2

/-- Witness for C4: in the two-client center `wcDE`, dispatching the
version-2 release delivers the shared payload to the stale client "cd". -/
theorem c4_notify_dispatch_witness :
    ("cd", NewConfigClientResponse Code.ExecuteSuccess
        (some relV2.ToSpecNotifyClientRequest))
      ∈ (notifyToWatchers wcDE relV2).2 :=
  (c4_notify_dispatch wcDE relV2 (by unfold CenterWF; decide) (by decide)).1 ("cd", ctxD)
    (by decide) (by decide) (by decide)

/-! Lemmas about the expiry sweeper's removal loop. -/

theorem reply_listWatchFiles (c : LongPollWatchContext) (rsp : ConfigClientResponse) :
    (c.Reply rsp).1.ListWatchFiles = c.ListWatchFiles := by
  unfold LongPollWatchContext.ListWatchFiles
  rw [reply_watchConfigFiles]

theorem sweepLoop_cons (wc : WatchCenter) (log : List (String × ConfigClientResponse))
    (watchCtx : LongPollWatchContext) (rest : List LongPollWatchContext) :
    sweepLoop wc log (watchCtx :: rest) =
      sweepLoop
        (RemoveAllWatcher
          { wc with
              clients := aset wc.clients watchCtx.ClientID (watchCtx.Reply notModifiedResponse).1 }
          watchCtx.ClientID)
        (log ++ (watchCtx.Reply notModifiedResponse).2.map
          (fun rsp => (watchCtx.ClientID, rsp)))
        rest :=
  rfl

theorem sweepLoop_log_mono (l : List LongPollWatchContext) :
    ∀ wc log (e : String × ConfigClientResponse), e ∈ log → e ∈ (sweepLoop wc log l).2 := by
  induction l with
  | nil => intro wc log e he; exact he
  | cons ctx rest ih =>
    intro wc log e he
    rw [sweepLoop_cons]
    exact ih _ _ e (List.mem_append_left _ he)

theorem sweepLoop_preserves_clients_none (c : String) (l : List LongPollWatchContext) :
    ∀ wc log, (∀ x ∈ l, x.ClientID ≠ c) → alookup wc.clients c = none →
      alookup (sweepLoop wc log l).1.clients c = none := by
  induction l with
  | nil => intro wc log _ h; exact h
  | cons ctx rest ih =>
    intro wc log hne h
    rw [sweepLoop_cons]
    refine ih _ _ (fun x hx => hne x (List.mem_cons_of_mem _ hx)) ?_
    apply removeAllWatcher_preserves_clients_none
    rw [alookup_aset_ne _ _ _ _ (hne ctx (List.mem_cons_self _ _)).symm]
    exact h

theorem sweepLoop_preserves_bucket_free (x : String) (k : FileId)
    (l : List LongPollWatchContext) :
    ∀ wc log, (∀ b, alookup wc.watchers k = some b → x ∉ b) →
      ∀ b, alookup (sweepLoop wc log l).1.watchers k = some b → x ∉ b := by
  induction l with
  | nil => intro wc log h b hb; exact h b hb
  | cons ctx rest ih =>
    intro wc log h b hb
    rw [sweepLoop_cons] at hb
    refine ih _ _ ?_ b hb
    exact removeAllWatcher_preserves_bucket_free _ _ _ _ h

theorem sweepLoop_target (l : List LongPollWatchContext) :
    ∀ wc log (ctxT : LongPollWatchContext), ctxT ∈ l →
      (l.map LongPollWatchContext.ClientID).Nodup →
      alookup (sweepLoop wc log l).1.clients ctxT.ClientID = none ∧
      (ctxT.onceDone = false →
        (ctxT.ClientID, notModifiedResponse) ∈ (sweepLoop wc log l).2) ∧
      (∀ f ∈ ctxT.ListWatchFiles, ∀ b,
        alookup (sweepLoop wc log l).1.watchers
          (GenFileId f.nspace f.group f.fileName) = some b → ctxT.ClientID ∉ b) := by
  induction l with
  | nil => intro wc log ctxT hmem; cases hmem
  | cons ctx rest ih =>
    intro wc log ctxT hmem hnd
    rw [List.map_cons, List.nodup_cons] at hnd
    rcases List.mem_cons.mp hmem with he | hmem2
    · subst he
      rw [sweepLoop_cons]
      have hset : alookup
          ({ wc with
              clients := aset wc.clients ctxT.ClientID (ctxT.Reply notModifiedResponse).1 }
            : WatchCenter).clients ctxT.ClientID
          = some (ctxT.Reply notModifiedResponse).1 :=
        alookup_aset_self _ _ _
      have hraw := removeAllWatcher_eq_of_lookup _ ctxT.ClientID _ hset
      have hnone1 : alookup (RemoveAllWatcher
          { wc with
              clients := aset wc.clients ctxT.ClientID (ctxT.Reply notModifiedResponse).1 }
          ctxT.ClientID).clients ctxT.ClientID = none := by
        rw [hraw]
        exact alookup_adel_self _ _
      have hrest : ∀ x ∈ rest, x.ClientID ≠ ctxT.ClientID := by
        intro x hx hhe
        exact hnd.1 (hhe ▸ List.mem_map_of_mem LongPollWatchContext.ClientID hx)
      refine ⟨?_, ?_, ?_⟩
      · exact sweepLoop_preserves_clients_none _ rest _ _ hrest hnone1
      · intro ho
        refine sweepLoop_log_mono rest _ _ _ ?_
        refine List.mem_append_right _ ?_
        rw [reply_sends_of_not_done _ _ ho]
        simp
      · intro f hf b hb
        refine sweepLoop_preserves_bucket_free _ _ rest _ _ ?_ b hb
        intro b2 hb2
        rw [hraw] at hb2
        rw [reply_listWatchFiles] at hb2
        exact removeFromBuckets_free_self _ _ _ f hf b2 hb2
    · rw [sweepLoop_cons]
      exact ih _ _ ctxT hmem2 hnd.2

/-- C7: a sweeper tick does nothing when no registrations are live; on a
well-formed center, every live registration whose `ShouldExpire` holds is
removed from the client index, its channel (when its latch was unfired)
receives the canonical no-change sentinel, and it is removed from the
bucket of every file in its interest set; and the sentinel really is code
DataNoChange with a nil ConfigFile. -/
theorem c7_sweeper_tick (wc : WatchCenter) (tNow : Nat) (hwf : CenterWF wc) :
    (wc.clients = [] → handleTimeoutTick wc tNow = (wc, [])) ∧
    (∀ p ∈ wc.clients, p.2.ShouldExpire tNow = true →
      alookup (handleTimeoutTick wc tNow).1.clients p.1 = none ∧
      (p.2.onceDone = false →
        (p.1, notModifiedResponse) ∈ (handleTimeoutTick wc tNow).2) ∧
      (∀ f ∈ p.2.ListWatchFiles, ∀ bucket,
        alookup (handleTimeoutTick wc tNow).1.watchers
          (GenFileId f.nspace f.group f.fileName) = some bucket → p.1 ∉ bucket)) ∧
    notModifiedResponse.code = Code.DataNoChange ∧
    notModifiedResponse.configFile = none := by
  refine ⟨?_, ?_, rfl, rfl⟩
  · intro h
    unfold handleTimeoutTick
    rw [h]
    rfl
  · intro p hp hexp
    have hne : ¬ wc.clients.length = 0 := by
      intro h0
      rw [List.length_eq_zero] at h0
      rw [h0] at hp
      exact absurd hp (List.not_mem_nil _)
    have heq : handleTimeoutTick wc tNow =
        sweepLoop wc []
          ((wc.clients.filter (fun q => q.2.ShouldExpire tNow)).map Prod.snd) := by
      unfold handleTimeoutTick
      rw [if_neg hne]
    have hpf : p ∈ wc.clients.filter (fun q => q.2.ShouldExpire tNow) :=
      List.mem_filter.mpr ⟨hp, hexp⟩
    have hpm : p.2 ∈ (wc.clients.filter (fun q => q.2.ShouldExpire tNow)).map Prod.snd :=
      List.mem_map_of_mem Prod.snd hpf
    have hmapeq :
        ((wc.clients.filter (fun q => q.2.ShouldExpire tNow)).map Prod.snd).map
            LongPollWatchContext.ClientID
          = (wc.clients.filter (fun q => q.2.ShouldExpire tNow)).map Prod.fst := by
      rw [List.map_map]
      refine List.map_congr_left ?_
      intro q hq
      exact hwf.1 q (List.mem_of_mem_filter hq)
    have hnd :
        (((wc.clients.filter (fun q => q.2.ShouldExpire tNow)).map Prod.snd).map
          LongPollWatchContext.ClientID).Nodup := by
      rw [hmapeq]
      exact List.Nodup.sublist (List.Sublist.map Prod.fst (List.filter_sublist _)) hwf.2
    have hcid : p.2.ClientID = p.1 := hwf.1 p hp
    have htgt := sweepLoop_target _ wc [] p.2 hpm hnd
    rw [heq, ← hcid]
    exact htgt

/-- Witness for C7: sweeping the two-client center `wcDE` removes "cd" and
delivers the no-change sentinel to it. -/
theorem c7_sweeper_tick_witness :
    alookup (handleTimeoutTick wcDE 77).1.clients "cd" = none ∧
      ("cd", notModifiedResponse) ∈ (handleTimeoutTick wcDE 77).2 := by
  have h := (c7_sweeper_tick wcDE 77 (by unfold CenterWF; decide)).2.1 ("cd", ctxD)
    (by decide) (by decide)
  exact ⟨h.1, h.2.1 (by decide)⟩

/-! Lemmas about the fast-path resolver. -/

theorem quickResponseLoop_cons (cache : List (FileId × SimpleConfigFileRelease))
    (watchCtx : LongPollWatchContext) (configFile : ClientConfigFileInfo)
    (rest : List ClientConfigFileInfo) :
    quickResponseLoop cache watchCtx (configFile :: rest) =
      if configFile.nspace = "" ∨ configFile.group = "" ∨ configFile.fileName = "" then
        some (NewConfigClientResponseWithInfo Code.BadRequest
          "namespace & group & fileName can not be empty")
      else
        match alookup cache
            (GenFileId configFile.nspace configFile.group configFile.fileName) with
        | some release =>
          if watchCtx.ShouldNotify release then
            some (NewConfigClientResponse Code.ExecuteSuccess
              (some ⟨configFile.nspace, configFile.group, configFile.fileName,
                release.version, release.md5, release.name⟩))
          else quickResponseLoop cache watchCtx rest
        | none => quickResponseLoop cache watchCtx rest :=
  rfl

theorem lookup_listWatchFiles (c : LongPollWatchContext) (hctx : CtxWF c)
    (f : ClientConfigFileInfo) (hf : f ∈ c.ListWatchFiles) :
    alookup c.watchConfigFiles (BuildKeyForClientConfigFileInfo f) = some f := by
  rcases List.mem_map.mp hf with ⟨p, hp, hpe⟩
  have h1 := hctx.1 p hp
  have h2 := alookup_mem_nodup c.watchConfigFiles p hctx.2 hp
  rw [h1, hpe] at h2
  exact h2

theorem shouldNotify_of_lookup (cache : List (FileId × SimpleConfigFileRelease))
    (c : LongPollWatchContext) (hctx : CtxWF c) (hcache : CacheWF cache)
    (f : ClientConfigFileInfo) (hf : f ∈ c.ListWatchFiles)
    (r : SimpleConfigFileRelease)
    (hr : alookup cache (GenFileId f.nspace f.group f.fileName) = some r) :
    c.ShouldNotify r = decide (f.version < r.version) := by
  have hk : r.ActiveKey = GenFileId f.nspace f.group f.fileName :=
    hcache (GenFileId f.nspace f.group f.fileName, r) (alookup_some_mem _ _ _ hr)
  have hl : alookup c.watchConfigFiles (BuildKeyForClientConfigFileInfo f) = some f :=
    lookup_listWatchFiles c hctx f hf
  unfold LongPollWatchContext.ShouldNotify
  rw [hk]
  rw [show GenFileId f.nspace f.group f.fileName
    = BuildKeyForClientConfigFileInfo f from rfl]
  rw [hl]

theorem quickResponseLoop_spec (cache : List (FileId × SimpleConfigFileRelease))
    (c : LongPollWatchContext) :
    ∀ L : List ClientConfigFileInfo,
      (∀ f ∈ L, ¬(f.nspace = "" ∨ f.group = "" ∨ f.fileName = "") ∧
        ∀ r, alookup cache (GenFileId f.nspace f.group f.fileName) = some r →
          c.ShouldNotify r = decide (f.version < r.version)) →
      ((L.any (newerB cache) = true →
        ∃ f ∈ L, ∃ r, alookup cache (GenFileId f.nspace f.group f.fileName) = some r ∧
          f.version < r.version ∧
          quickResponseLoop cache c L =
            some (NewConfigClientResponse Code.ExecuteSuccess
              (some ⟨f.nspace, f.group, f.fileName, r.version, r.md5, r.name⟩))) ∧
       (L.any (newerB cache) = false → quickResponseLoop cache c L = none)) := by
  intro L
  induction L with
  | nil =>
    intro _
    refine ⟨?_, ?_⟩
    · intro hany; cases hany
    · intro _; rfl
  | cons f0 rest ih =>
    intro hL
    have hf0 := hL f0 (List.mem_cons_self _ _)
    have ihr := ih (fun f hf => hL f (List.mem_cons_of_mem _ hf))
    refine ⟨?_, ?_⟩
    · intro hany
      rw [List.any_cons] at hany
      cases hcr : alookup cache (GenFileId f0.nspace f0.group f0.fileName) with
      | none =>
        have hdec0 : newerB cache f0 = false := by unfold newerB; rw [hcr]
        rw [hdec0, Bool.false_or] at hany
        rcases ihr.1 hany with ⟨f, hf, r, hr, hv, hloop⟩
        refine ⟨f, List.mem_cons_of_mem _ hf, r, hr, hv, ?_⟩
        rw [quickResponseLoop_cons, if_neg hf0.1]
        simp only [hcr]
        exact hloop
      | some r =>
        have hsn := hf0.2 r hcr
        by_cases hv : f0.version < r.version
        · refine ⟨f0, List.mem_cons_self _ _, r, hcr, hv, ?_⟩
          rw [quickResponseLoop_cons, if_neg hf0.1]
          simp only [hcr]
          rw [hsn]
          simp [hv]
        · have hdec0 : newerB cache f0 = false := by
            unfold newerB
            rw [hcr]
            simp [hv]
          rw [hdec0, Bool.false_or] at hany
          rcases ihr.1 hany with ⟨f, hf, r2, hr2, hv2, hloop⟩
          refine ⟨f, List.mem_cons_of_mem _ hf, r2, hr2, hv2, ?_⟩
          rw [quickResponseLoop_cons, if_neg hf0.1]
          simp only [hcr]
          rw [hsn]
          simp only [decide_eq_true_eq]
          rw [if_neg hv]
          exact hloop
    · intro hany
      rw [List.any_cons] at hany
      cases hcr : alookup cache (GenFileId f0.nspace f0.group f0.fileName) with
      | none =>
        have hdec0 : newerB cache f0 = false := by unfold newerB; rw [hcr]
        rw [hdec0, Bool.false_or] at hany
        rw [quickResponseLoop_cons, if_neg hf0.1]
        simp only [hcr]
        exact ihr.2 hany
      | some r =>
        have hdec : newerB cache f0 = decide (f0.version < r.version) := by
          unfold newerB; rw [hcr]
        rw [hdec] at hany
        have hv : ¬ f0.version < r.version := by
          intro hv
          rw [decide_eq_true hv, Bool.true_or] at hany
          cases hany
        have hrest : rest.any (newerB cache) = false := by
          cases hd : rest.any (newerB cache)
          · rfl
          · rw [hd, Bool.or_true] at hany
            cases hany
        rw [quickResponseLoop_cons, if_neg hf0.1]
        simp only [hcr]
        rw [hf0.2 r hcr]
        simp only [decide_eq_true_eq]
        rw [if_neg hv]
        exact ihr.2 hrest

/-- C8: for a well-formed watch context with a non-empty, well-formed file
list, against a well-formed cache: if some requested file has a cached
active release strictly newer than the declared version, the fast-path
check returns an immediate ExecuteSuccess response built from that
release's identity, version, md5 and name; if no requested file has a
strictly newer cached release it returns nil. -/
theorem c8_fast_path (cache : List (FileId × SimpleConfigFileRelease))
    (c : LongPollWatchContext) (hctx : CtxWF c) (hcache : CacheWF cache)
    (hne : c.ListWatchFiles ≠ [])
    (hgood : ∀ f ∈ c.ListWatchFiles,
      ¬(f.nspace = "" ∨ f.group = "" ∨ f.fileName = "")) :
    (hasNewerReleaseB cache c = true →
      ∃ f ∈ c.ListWatchFiles, ∃ r,
        alookup cache (GenFileId f.nspace f.group f.fileName) = some r ∧
        f.version < r.version ∧
        r.nspace = f.nspace ∧ r.group = f.group ∧ r.fileName = f.fileName ∧
        checkQuickResponseClient cache c =
          some (NewConfigClientResponse Code.ExecuteSuccess
            (some ⟨f.nspace, f.group, f.fileName, r.version, r.md5, r.name⟩))) ∧
    (hasNewerReleaseB cache c = false → checkQuickResponseClient cache c = none) := by
  have hspec := quickResponseLoop_spec cache c c.ListWatchFiles
    (fun f hf => ⟨hgood f hf, fun r hr => shouldNotify_of_lookup cache c hctx hcache f hf r hr⟩)
  have hcq : checkQuickResponseClient cache c = quickResponseLoop cache c c.ListWatchFiles := by
    unfold checkQuickResponseClient
    rw [if_neg (by intro h0; rw [List.length_eq_zero] at h0; exact hne h0)]
  constructor
  · intro hany
    rcases hspec.1 hany with ⟨f, hf, r, hr, hv, hloop⟩
    have hk : r.ActiveKey = GenFileId f.nspace f.group f.fileName :=
      hcache (GenFileId f.nspace f.group f.fileName, r) (alookup_some_mem _ _ _ hr)
    have h1 : r.nspace = f.nspace := congrArg FileId.nspace hk
    have h2 : r.group = f.group := congrArg FileId.group hk
    have h3 : r.fileName = f.fileName := congrArg FileId.fileName hk
    exact ⟨f, hf, r, hr, hv, h1, h2, h3, by rw [hcq]; exact hloop⟩
  · intro hany
    rw [hcq]
    exact hspec.2 hany

/-- Witness for C8: client "cc" declares version 1 of `fidF` and the cache
holds the version-2 release, so the check short-circuits. -/
theorem c8_fast_path_witness :
    (hasNewerReleaseB cacheF2 ctxC = true →
      ∃ f ∈ ctxC.ListWatchFiles, ∃ r,
        alookup cacheF2 (GenFileId f.nspace f.group f.fileName) = some r ∧
        f.version < r.version ∧
        r.nspace = f.nspace ∧ r.group = f.group ∧ r.fileName = f.fileName ∧
        checkQuickResponseClient cacheF2 ctxC =
          some (NewConfigClientResponse Code.ExecuteSuccess
            (some ⟨f.nspace, f.group, f.fileName, r.version, r.md5, r.name⟩))) ∧
    (hasNewerReleaseB cacheF2 ctxC = false →
      checkQuickResponseClient cacheF2 ctxC = none) :=
  c8_fast_path cacheF2 ctxC (by unfold CtxWF; decide) (by unfold CacheWF; decide)
    (by decide) (by decide)

/-- C9 counterexample: the context `ctxQ` lists a well-formed stale entry
for `fidF` before a malformed entry (empty namespace), and the cache holds
a newer release of `fidF`; the check returns an ExecuteSuccess quick
response, not the claimed invalid-request failure, even though a listed
file omits its namespace. -/
theorem c9_counterexample :
    badInfo ∈ ctxQ.ListWatchFiles ∧ badInfo.nspace = "" ∧
      checkQuickResponseClient cacheF2 ctxQ =
        some (NewConfigClientResponse Code.ExecuteSuccess
          (some ⟨"ns", "g", "f", 2, "m2", "f"⟩)) := by
  decide

theorem quickResponseLoop_append_skip (cache : List (FileId × SimpleConfigFileRelease))
    (c : LongPollWatchContext) (pre : List ClientConfigFileInfo)
    (tail : List ClientConfigFileInfo)
    (hpre : ∀ f ∈ pre, ¬(f.nspace = "" ∨ f.group = "" ∨ f.fileName = "") ∧
      ∀ r ∈ (alookup cache (GenFileId f.nspace f.group f.fileName)).toList,
        c.ShouldNotify r = false) :
    quickResponseLoop cache c (pre ++ tail) = quickResponseLoop cache c tail := by
  induction pre with
  | nil => rfl
  | cons f0 rest ih =>
    have hf0 := hpre f0 (List.mem_cons_self _ _)
    rw [List.cons_append, quickResponseLoop_cons, if_neg hf0.1]
    cases hcr : alookup cache (GenFileId f0.nspace f0.group f0.fileName) with
    | none =>
      simp only [hcr]
      exact ih (fun f hf => hpre f (List.mem_cons_of_mem _ hf))
    | some r =>
      simp only [hcr]
      have hsn : c.ShouldNotify r = false := by
        refine hf0.2 r ?_
        rw [hcr]
        exact List.mem_singleton.mpr rfl
      rw [hsn]
      rw [if_neg (by decide : ¬ false = true)]
      exact ih (fun f hf => hpre f (List.mem_cons_of_mem _ hf))

/-- C9 amended: with zero files the check returns the structured
InvalidWatchConfigFileFormat failure; and when a listed file omits its
namespace, group or file name and no entry listed before it triggers an
immediate quick response (well-formed, and any cached release for it does
not notify this context), the check returns the structured BadRequest
failure, before any cache lookup for the malformed entry and without the
client entering the interest index. -/
theorem c9_invalid_request_amended (cache : List (FileId × SimpleConfigFileRelease))
    (c : LongPollWatchContext) (pre post : List ClientConfigFileInfo)
    (bad : ClientConfigFileInfo)
    (hsplit : c.ListWatchFiles = pre ++ bad :: post)
    (hbad : bad.nspace = "" ∨ bad.group = "" ∨ bad.fileName = "")
    (hpre : ∀ f ∈ pre, ¬(f.nspace = "" ∨ f.group = "" ∨ f.fileName = "") ∧
      ∀ r ∈ (alookup cache (GenFileId f.nspace f.group f.fileName)).toList,
        c.ShouldNotify r = false) :
    checkQuickResponseClient cache c =
      some (NewConfigClientResponseWithInfo Code.BadRequest
        "namespace & group & fileName can not be empty") ∧
    (∀ c0 : LongPollWatchContext, c0.ListWatchFiles = [] →
      checkQuickResponseClient cache c0 =
        some (NewConfigClientResponse0 Code.InvalidWatchConfigFileFormat)) := by
  constructor
  · unfold checkQuickResponseClient
    rw [hsplit]
    rw [if_neg (by simp)]
    rw [quickResponseLoop_append_skip cache c pre (bad :: post) hpre]
    rw [quickResponseLoop_cons, if_pos hbad]
  · intro c0 h0
    unfold checkQuickResponseClient
    rw [h0]
    rfl

/-- Witness for the amended C9: with an empty cache, `ctxQ` (one
well-formed entry, then a malformed one) is rejected with BadRequest. -/
theorem c9_invalid_request_amended_witness :
    checkQuickResponseClient [] ctxQ =
      some (NewConfigClientResponseWithInfo Code.BadRequest
        "namespace & group & fileName can not be empty") ∧
    (∀ c0 : LongPollWatchContext, c0.ListWatchFiles = [] →
      checkQuickResponseClient [] c0 =
        some (NewConfigClientResponse0 Code.InvalidWatchConfigFileFormat)) :=
  c9_invalid_request_amended [] ctxQ [infoV1] [] badInfo (by decide) (by decide)
    (by decide)

end PolarisConfig
